import Mathlib

/-!
Verification of the SuperSockets connection protocol
(`src/supersockets/supersockets.py`, class `connect`).

Byte strings on the wire are modelled as `List Nat` (one `Nat` per byte /
character; the envelope text produced by the library is ASCII, so the
`str.encode("utf-8")` / `bytes.decode("utf-8")` pair is the identity on
this representation).  External collaborators (the `listcrypt` symmetric
cipher, the `rapidrsa` asymmetric cipher, `sha256`, and the
`convert_data` / `convert_data_back` value codec) are parameters of the
definitions, with their contracts stated as hypotheses of the theorems.
-/

/-- Wire-level byte strings. -/
abbrev Str := List Nat

/-- The literal acknowledgement sentinel `"True"` (ASCII bytes). -/
def trueTok : Str := [84, 114, 117, 101]

/-- The literal marker `"rsa_disabled"` (ASCII bytes) sent by a server with
RSA off (line 146). -/
def rsaDisabledTok : Str := [114, 115, 97, 95, 100, 105, 115, 97, 98, 108, 101, 100]

/-- Errors raised by `connect.send` / `connect.recv`:
`desync` is the `ConnectionError("Unsynchronized connection, ...")` raised on
an acknowledgement mismatch, `valueError` the `ValueError` raised by `int()`
on a malformed length header, `timeout` a blocking read that can never be
satisfied, and `jsonError` the `json.JSONDecodeError` raised by
`json.loads` on a malformed body. -/
inductive ConnError where
  | desync
  | valueError
  | timeout
  | jsonError
deriving DecidableEq, Repr

/-- Fuel-indexed digit expansion of a natural number, mirroring Python
`str(n)` for positive `n`.  The fuel argument only bounds the recursion
depth: digits are produced most-significant first. -/
def natToStrCore : Nat → Nat → Str
  | 0, _ => []
  | fuel + 1, n => if n = 0 then [] else natToStrCore fuel (n / 10) ++ [n % 10 + 48]

/-- Python `str(n)` for a natural number, as ASCII bytes. -/
def natToStr (n : Nat) : Str := if n = 0 then [48] else natToStrCore n n

/-- ASCII digit test. -/
def isDigit (c : Nat) : Bool := decide (48 ≤ c) && decide (c ≤ 57)

/-- Accumulator pass of Python `int(s)` over ASCII digits. -/
def strToNatCore (acc : Nat) (s : Str) : Nat :=
  s.foldl (fun a c => a * 10 + (c - 48)) acc

/-- Python `int(s)` on a decimal string: fails (raises `ValueError`) unless
`s` is a nonempty run of ASCII digits. -/
def strToNat (s : Str) : Option Nat :=
  if s ≠ [] ∧ s.all isDigit then some (strToNatCore 0 s) else none

/-- JSON string-literal escaping of one byte, as performed by `json.dumps`
on the envelope fields: a double quote (34) or backslash (92) is preceded
by a backslash. -/
def escapeChar (c : Nat) : Str := if c = 34 ∨ c = 92 then [92, c] else [c]

/-- JSON string-literal escaping of a byte string. -/
def escape : Str → Str
  | [] => []
  | c :: rest => escapeChar c ++ escape rest

/-- Reads a JSON string literal body up to and including its closing quote,
undoing `escape`; returns the decoded content and the unconsumed rest.
`none` models a `json.JSONDecodeError`. -/
def readStringLit : Str → Option (Str × Str)
  | [] => none
  | c :: rest =>
    if c = 34 then some ([], rest)
    else if c = 92 then
      match rest with
      | [] => none
      | d :: rest2 =>
        match readStringLit rest2 with
        | none => none
        | some (s, r) => some (d :: s, r)
    else
      match readStringLit rest with
      | none => none
      | some (s, r) => some (c :: s, r)

/-- literal bytes of the text `{"data":"` opening the serialized envelope. -/
def jsonPre : Str := [123, 34, 100, 97, 116, 97, 34, 58, 34]

/-- literal bytes of `","type":"` separating the two envelope fields; its
leading byte 34 is the closing quote of the `data` field. -/
def jsonMid : Str := [34, 44, 34, 116, 121, 112, 101, 34, 58, 34]

/-- bytes of `jsonMid` after its leading quote. -/
def jsonMid2 : Str := [44, 34, 116, 121, 112, 101, 34, 58, 34]

/-- literal bytes of `"}` closing the serialized envelope. -/
def jsonSuf : Str := [34, 125]

/-- Python `json.dumps({"data": d, "type": t})` (line 197-198): the envelope
serialized as `{"data":"<d>","type":"<t>"}` with string escaping. -/
def dumpsEnvelope (d t : Str) : Str :=
  jsonPre ++ escape d ++ jsonMid ++ escape t ++ jsonSuf

/-- Consumes an exact literal prefix, returning the rest; `none` on mismatch. -/
def dropExact : Str → Str → Option Str
  | [], s => some s
  | _ :: _, [] => none
  | p :: ps, c :: cs => if p = c then dropExact ps cs else none

/-- Python `json.loads` specialised to the envelope shape emitted by
`dumpsEnvelope` (line 276): recovers the `data` and `type` fields, failing
(`json.JSONDecodeError`, modelled as `none`) on any other input — in
particular on the empty string. -/
def loadsEnvelope (s : Str) : Option (Str × Str) :=
  match dropExact jsonPre s with
  | none => none
  | some s1 =>
    match readStringLit s1 with
    | none => none
    | some (d, s2) =>
      match dropExact jsonMid2 s2 with
      | none => none
      | some s3 =>
        match readStringLit s3 with
        | none => none
        | some (t, s4) => if s4 = [125] then some (d, t) else none

/-- The `listcrypt` symmetric cipher (external collaborator): `encrypt key
text` and `decrypt key text`.  Its contracts are hypotheses of the
theorems that need them. -/
structure Cipher where
  encrypt : Str → Str → Str
  decrypt : Str → Str → Str

/-- The external value codec: `convert_data` turns an arbitrary value into
an envelope pair (serialized data, type tag); `convert_data_back`
reconstructs the value. -/
structure DataCodec (α : Type) where
  convert_data : α → Str × Str
  convert_data_back : Str × Str → α

/-- The maximum single-transfer size hard-coded in `connect.recv`
(lines 258-269). -/
def maxChunk : Nat := 65536

/-- Everything one `connect.send` call writes to the socket, in order:
the length header (`sendall`, line 205 / 216), the acknowledgement sent
after the sync check (line 210 / 221), and the body writes (line 212 /
223) — one list entry per `sendall` call. -/
structure SendTrace where
  header : Str
  ackSent : Str
  bodyChunks : List Str
deriving DecidableEq, Repr

namespace connect

/-- Function `connect.send` (lines 182-225).  `peerAck` is the (at most 4) bytes
returned by the `self.con.recv(4)` sync read; on mismatch the
`ConnectionError` of line 209 / 220 is raised (note the header has already
been written at that point).  On success the returned trace lists every
`sendall` payload in order. -/
def send {α : Type} (C : Cipher) (dc : DataCodec α) (key : Option Str)
    (data : α) (peerAck : Str) : Except ConnError SendTrace :=
  let metadata := dc.convert_data data
  let body := dumpsEnvelope metadata.1 metadata.2
  match key with
  | some k =>
    let encrypted_data := C.encrypt k body
    if peerAck = trueTok then
      .ok ⟨C.encrypt k (natToStr encrypted_data.length), trueTok, [encrypted_data]⟩
    else .error .desync
  | none =>
    if peerAck = trueTok then
      .ok ⟨natToStr body.length, trueTok, [body]⟩
    else .error .desync

/-- The `while len(data) < size` loop of `connect.recv` (lines 267-273):
each iteration reads at most 65536 bytes from the stream and appends the
decoded (decrypted / utf-8) result to `data`.  An exhausted stream models a
read that can never be satisfied, surfacing as the socket timeout. -/
def recvLoop (decode : Str → Str) (size : Nat) (data stream : Str) :
    Except ConnError (Str × Str) :=
  if data.length < size then
    match stream with
    | [] => .error .timeout
    | c :: rest =>
      recvLoop decode size (data ++ decode ((c :: rest).take maxChunk))
        ((c :: rest).drop maxChunk)
  else .ok (data, stream)
termination_by stream.length
decreasing_by
  simp [maxChunk]
  omega

/-- The body-reading phase of `connect.recv` (lines 256-273): two
independent branches for `size < 65536` (single `recv(size)`, line 262)
and `size > 65536` (the accumulate loop); when `size` is exactly 65536,
neither branch runs and `data` stays the empty string.  Returns the
decoded body and the unconsumed stream. -/
def readBody (decode : Str → Str) (size : Nat) (stream : Str) :
    Except ConnError (Str × Str) :=
  if size < maxChunk then
    if size ≠ 0 ∧ stream = [] then .error .timeout
    else .ok (decode (stream.take size), stream.drop size)
  else if maxChunk < size then
    recvLoop decode size [] stream
  else .ok ([], stream)

/-- How `connect.recv` interprets the length header (lines 240-249):
decrypt it when a key is active, then parse it with `int()`. -/
def declaredSize (C : Cipher) (key : Option Str) (header : Str) : Option Nat :=
  match key with
  | some k => strToNat (C.decrypt k header)
  | none => strToNat header

/-- The per-read decoding `connect.recv` applies to body bytes:
`decrypt(key, received)` when a key is active (lines 264, 271), the
identity (`bytes.decode("utf-8")` on ASCII) otherwise. -/
def bodyDecode (C : Cipher) (key : Option Str) : Str → Str :=
  match key with
  | some k => fun s => C.decrypt k s
  | none => fun s => s

/-- Function `connect.recv` (lines 229-279).  `headerBytes` is the data available
to the `self.con.recv(1024)` header read (the sender is blocked on the
sync exchange until the header is parsed, so only the header frame is in
flight); `rest` is the byte stream the peer sends afterwards, beginning
with its 4-byte acknowledgement.  Mirrors, in order: the header parse,
the unconditional `sendall("True")` (line 252), the sync check on
`recv(4)` (line 253), the body-reading branches, `json.loads`, and
`convert_data_back`.  Returns the reconstructed value and the unconsumed
stream. -/
def recv {α : Type} (C : Cipher) (dc : DataCodec α) (key : Option Str)
    (headerBytes : Str) (rest : Str) : Except ConnError (α × Str) :=
  let received := headerBytes.take 1024
  match declaredSize C key received with
  | none => .error .valueError
  | some size =>
    if rest.take 4 ≠ trueTok then .error .desync
    else
      match readBody (bodyDecode C key) size (rest.drop 4) with
      | .error e => .error e
      | .ok (data, remaining) =>
        match loadsEnvelope data with
        | none => .error .jsonError
        | some md => .ok (dc.convert_data_back md, remaining)

end connect

/-- One full frame exchange: the peer calls `send(value)` answering the
receiver's acknowledgement with its own trace; the receiver parses the
header frame, then reads the sender's acknowledgement followed by the
body writes as one byte stream. -/
def sendRecvRoundTrip {α : Type} (C : Cipher) (dc : DataCodec α)
    (key : Option Str) (v : α) : Except ConnError (α × Str) :=
  match connect.send C dc key v trueTok with
  | .error e => .error e
  | .ok tr => connect.recv C dc key tr.header (tr.ackSent ++ tr.bodyChunks.flatten)

/-- The byte string `connect.send` writes as the frame body (before any
splitting question arises): the serialized envelope, encrypted when a key
is active. -/
def wireBody {α : Type} (C : Cipher) (dc : DataCodec α) (key : Option Str)
    (v : α) : Str :=
  match key with
  | some k => C.encrypt k (dumpsEnvelope (dc.convert_data v).1 (dc.convert_data v).2)
  | none => dumpsEnvelope (dc.convert_data v).1 (dc.convert_data v).2

/-- A logical value travelling through the (already verified) frame layer
during the handshake: either a text value or the two-field
`symmetric_key_confirmation` dictionary of lines 136-139. -/
inductive HVal where
  | str (s : Str)
  | dict (data hash : Str)
deriving DecidableEq, Repr

/-- The `rapidrsa` asymmetric-cipher object held by the server (external
collaborator): its public key and private-key decryption. -/
structure RsaApi where
  public_key : Str
  decrypt : Str → Str

/-- Server lines 126-140 (state `Offered` to `KeyReceived`): decrypt the
received session password with the RSA private key and build the
`symmetric_key_confirmation` dictionary from the random
`confirmation_data` `cd`; a non-text received value would make
`rsa.decrypt` raise.  Returns the candidate password and the dictionary
sent. -/
def server_offered (sym : Cipher) (rsa : RsaApi) (sha : Str → Str) (cd : Str)
    (r1 : HVal) : Except ConnError (Str × HVal) :=
  match r1 with
  | .str s =>
    let session_password := rsa.decrypt s
    .ok (session_password, .dict (sym.encrypt session_password cd) (sha cd))
  | .dict _ _ => .error .valueError

/-- Server lines 142-143 (state `KeyReceived` to `Confirmed`): adopt the
candidate session password only if the peer echoed the confirmation value;
otherwise `self.key` keeps its prior value and no error is raised. -/
def server_confirm (key0 : Option Str) (session_password cd : Str) (r2 : HVal) :
    Option Str :=
  if r2 = .str cd then some session_password else key0

/-- Client lines 171-177 (confirmation check): decrypt the dictionary's
`data` field with the candidate session password; if its hash matches the
received `hash`, echo the confirmation value and adopt the password,
otherwise keep the prior key, send nothing, and raise nothing.  A received
text value would make the `['data']` subscript raise. -/
def client_confirm (sym : Cipher) (sha : Str → Str) (key0 : Option Str)
    (session_password : Str) (m2 : HVal) : Except ConnError (Option Str × Option HVal) :=
  match m2 with
  | .dict d h =>
    let confirmation_data := sym.decrypt session_password d
    if sha confirmation_data = h then
      .ok (some session_password, some (.str confirmation_data))
    else .ok (key0, none)
  | .str _ => .error .valueError

/-- Client lines 151-158: up to 30 attempts to receive the server's
marker frame, indexed from 0; on the attempt that succeeds the loop
breaks before sleeping, on a failed attempt it sleeps one second.
`attempt i` is what the i-th `self.recv()` yields (`none` models
`socket.timeout`).  Returns the received value (if any) and the number of
one-second sleeps performed. -/
def waitKeyAux (attempt : Nat → Option HVal) : Nat → Nat → Option HVal × Nat
  | _, 0 => (none, 0)
  | i, n + 1 =>
    match attempt i with
    | some v => (some v, 0)
    | none =>
      let r := waitKeyAux attempt (i + 1) n
      (r.1, r.2 + 1)

/-- The full 30-iteration wait loop of lines 150-158. -/
def waitKey (attempt : Nat → Option HVal) : Option HVal × Nat :=
  waitKeyAux attempt 0 30

/-- The whole client side of `create_secure_connection` (lines 148-177).
`rsaEnc pub s` models `rsa.encrypt(s)` after `rsa.public_key = pub`;
`session_password` is the random password `rsa.generate_password()`
returns; `m2` is the value the second `self.recv()` (line 172) yields.
Returns the endpoint's final key and the number of one-second sleeps; the
timeout of lines 159-160 surfaces as `ConnError.timeout`
(`socket.timeout`). -/
def create_secure_connection_client (sym : Cipher) (rsaEnc : Str → Str → Str)
    (sha : Str → Str) (key0 : Option Str) (session_password : Str)
    (attempt : Nat → Option HVal) (m2 : HVal) :
    Except ConnError (Option Str × Nat) :=
  match waitKey attempt with
  | (none, s) =>
    let _ := s
    .error .timeout
  | (some public_key, s) =>
    match public_key with
    | .str p =>
      if p ≠ rsaDisabledTok then
        let _encrypted_session_password := rsaEnc p session_password
        match client_confirm sym sha key0 session_password m2 with
        | .error e => .error e
        | .ok (k, _ack) => .ok (k, s)
      else .ok (key0, s)
    | .dict _ _ => .error .valueError

/-- The whole server side of `create_secure_connection` (lines 125-146).
`cd` is the random `confirmation_data` of line 134; `r1`, `r2` are the
values the two `self.recv()` calls yield.  Returns the endpoint's final
key and the list of values sent. -/
def create_secure_connection_server (sym : Cipher) (rsa : RsaApi)
    (sha : Str → Str) (key0 : Option Str) (cd : Str) (rsa_enabled : Bool)
    (r1 r2 : HVal) : Except ConnError (Option Str × List HVal) :=
  if rsa_enabled then
    match server_offered sym rsa sha cd r1 with
    | .error e => .error e
    | .ok (session_password, skc) =>
      .ok (server_confirm key0 session_password cd r2, [.str rsa.public_key, skc])
  else .ok (key0, [.str rsaDisabledTok])

/-- Both endpoints running `create_secure_connection` to completion over
the verified frame layer, with each side's receives wired to the other
side's sends in protocol order: the server's marker/public-key frame
reaches the client's first attempt; the client's encrypted session
password reaches the server; the server's confirmation dictionary reaches
the client; the client's echo (when sent) reaches the server.  Returns
(server key, client key). -/
def handshakePair (sym : Cipher) (rsa : RsaApi) (rsaEnc : Str → Str → Str)
    (sha : Str → Str) (k0s k0c : Option Str) (cd session_password : Str)
    (rsa_enabled : Bool) : Except ConnError (Option Str × Option Str) :=
  if rsa_enabled then
    match waitKey (fun i => if i = 0 then some (.str rsa.public_key) else none) with
    | (none, _) => .error .timeout
    | (some pk, _) =>
      match pk with
      | .dict _ _ => .error .valueError
      | .str p =>
        if p = rsaDisabledTok then .error .timeout
        else
          let encrypted_session_password := rsaEnc p session_password
          match server_offered sym rsa sha cd (.str encrypted_session_password) with
          | .error e => .error e
          | .ok (spw', skc) =>
            match client_confirm sym sha k0c session_password skc with
            | .error e => .error e
            | .ok (ckey, ack) =>
              match ack with
              | some a => .ok (server_confirm k0s spw' cd a, ckey)
              | none => .error .timeout
  else
    match waitKey (fun i => if i = 0 then some (.str rsaDisabledTok) else none) with
    | (none, _) => .error .timeout
    | (some pk, _) =>
      match pk with
      | .dict _ _ => .error .valueError
      | .str p => if p = rsaDisabledTok then .ok (k0s, k0c) else .error .timeout

/-- The OS-level cause of a failed `socket.bind` on a listener. -/
inductive BindErrno where
  | eacces
  | eaddrinuse
  | eaddrnotavail
deriving DecidableEq, Repr

/-- The Python exception class `socket.bind` raises for each cause, per the
CPython/OS error mapping (external to the repository): a privileged-port
violation (EACCES) surfaces as `PermissionError`; a port already in use
(EADDRINUSE) and a non-local address (EADDRNOTAVAIL) surface as plain
`OSError`, of which `PermissionError` is a subclass. -/
inductive PyExcClass where
  | permissionError
  | osError
deriving DecidableEq, Repr

/-- the CPython exception class for each bind errno. -/
def pythonExcClass : BindErrno → PyExcClass
  | .eacces => .permissionError
  | .eaddrinuse => .osError
  | .eaddrnotavail => .osError

/-- The two distinct setup errors `connect.__init__` can raise from a bind
failure: `portInUse` carries the message "Port {port} is already in use by
another service, try a port above 999" (line 92) and `badIp` the message
"'{ip}' must not be your ip address" (line 94). -/
inductive SetupMsg where
  | portInUse (port : Nat)
  | badIp (ip : Str)
deriving DecidableEq, Repr

/-- The exception-dispatch of lines 89-94: `except PermissionError` maps to
the `portInUse` message, the remaining `except OSError` to the `badIp`
message. -/
def bindErrorRaised (ip : Str) (port : Nat) (e : BindErrno) : SetupMsg :=
  match pythonExcClass e with
  | .permissionError => .portInUse port
  | .osError => .badIp ip

/-- a concrete cipher instance meeting every cipher contract the theorems
assume: encryption shifts each byte value up by one, decryption shifts it
back down. -/
def succCipher : Cipher where
  encrypt := fun _ s => s.map (fun c => c + 1)
  decrypt := fun _ s => s.map (fun c => c - 1)

/-- a concrete value codec on byte strings: a value is its own data field,
with the constant type tag `"s"` (byte 115). -/
def strCodec : DataCodec Str where
  convert_data := fun s => (s, [115])
  convert_data_back := fun p => p.1

/-- a concrete `rapidrsa` instance for witnesses: identity encryption. -/
def idRsa : RsaApi where
  public_key := [112]
  decrypt := fun s => s

/-- a 70000-byte payload, whose serialized envelope exceeds the maximum
single-transfer size. -/
def bigPayload : Str := List.replicate 70000 97

/-- its serialized envelope. -/
def bigBody : Str := dumpsEnvelope bigPayload [115]

theorem strToNatCore_append (acc : Nat) (s t : Str) :
    strToNatCore acc (s ++ t) = strToNatCore (strToNatCore acc s) t := by
  simp [strToNatCore, List.foldl_append]

theorem natToStrCore_eval (fuel n : Nat) (h : n ≤ fuel) (acc : Nat) :
    strToNatCore acc (natToStrCore fuel n) =
      acc * 10 ^ (natToStrCore fuel n).length + n := by
  induction fuel generalizing n acc with
  | zero =>
    have hn : n = 0 := Nat.le_zero.mp h
    subst hn
    simp [natToStrCore, strToNatCore]
  | succ fuel ih =>
    by_cases hn : n = 0
    · simp [natToStrCore, hn, strToNatCore]
    · have hdiv : n / 10 ≤ fuel := by
        have h1 : n / 10 < n := Nat.div_lt_self (Nat.pos_of_ne_zero hn) (by norm_num)
        omega
      simp only [natToStrCore, hn, if_false, strToNatCore_append]
      rw [ih (n / 10) hdiv acc]
      simp [strToNatCore, Nat.pow_succ]
      ring_nf
      omega

theorem natToStrCore_all_digits (fuel n : Nat) :
    (natToStrCore fuel n).all isDigit = true := by
  induction fuel generalizing n with
  | zero => simp [natToStrCore]
  | succ fuel ih =>
    by_cases hn : n = 0
    · simp [natToStrCore, hn]
    · have hm : n % 10 < 10 := Nat.mod_lt _ (by norm_num)
      simp only [natToStrCore, hn, if_false, List.all_append, Bool.and_eq_true]
      refine ⟨ih _, ?_⟩
      simp [isDigit]
      omega

theorem natToStrCore_ne_nil (fuel n : Nat) (h : n ≤ fuel) (hn : n ≠ 0) :
    natToStrCore fuel n ≠ [] := by
  cases fuel with
  | zero => omega
  | succ fuel => simp [natToStrCore, hn]

/-- the decimal header codec round-trips: `int(str(n)) = n`. -/
theorem strToNat_natToStr (n : Nat) : strToNat (natToStr n) = some n := by
  by_cases hn : n = 0
  · subst hn
    simp [natToStr, strToNat, strToNatCore, isDigit]
  · have hne := natToStrCore_ne_nil n n le_rfl hn
    simp only [natToStr, hn, if_false, strToNat]
    rw [if_pos ⟨hne, natToStrCore_all_digits n n⟩]
    rw [natToStrCore_eval n n le_rfl 0]
    simp

theorem dropExact_append (p s : Str) : dropExact p (p ++ s) = some s := by
  induction p with
  | nil => rfl
  | cons c ps ih => simp [dropExact, ih]

theorem readStringLit_escape (s r : Str) :
    readStringLit (escape s ++ 34 :: r) = some (s, r) := by
  induction s with
  | nil =>
    show readStringLit (34 :: r) = some ([], r)
    rw [readStringLit.eq_def]
    simp
  | cons c rest ih =>
    by_cases hc : c = 34 ∨ c = 92
    · have h1 : escape (c :: rest) ++ 34 :: r = 92 :: c :: (escape rest ++ 34 :: r) := by
        simp [escape, escapeChar, hc]
      rw [h1, readStringLit.eq_def]
      simp [ih]
    · have h34 : c ≠ 34 := fun h => hc (Or.inl h)
      have h92 : c ≠ 92 := fun h => hc (Or.inr h)
      have h1 : escape (c :: rest) ++ 34 :: r = c :: (escape rest ++ 34 :: r) := by
        simp [escape, escapeChar, hc]
      rw [h1, readStringLit.eq_def]
      simp [h34, h92, ih]

/-- the envelope codec round-trips: `json.loads(json.dumps(env))` recovers
both fields. -/
theorem loadsEnvelope_dumpsEnvelope (d t : Str) :
    loadsEnvelope (dumpsEnvelope d t) = some (d, t) := by
  have h1 : dumpsEnvelope d t =
      jsonPre ++ (escape d ++ 34 :: (jsonMid2 ++ (escape t ++ 34 :: [125]))) := by
    simp [dumpsEnvelope, jsonPre, jsonMid, jsonMid2, jsonSuf]
  simp only [loadsEnvelope, h1, dropExact_append, readStringLit_escape]
  simp

/-- When the decoder is chunk-additive and length-preserving and the
stream holds exactly the outstanding bytes, the accumulate loop of
`connect.recv` consumes the whole stream and decodes it in order. -/
theorem recvLoop_exact (decode : Str → Str)
    (hadd : ∀ a b, decode (a ++ b) = decode a ++ decode b)
    (hlen : ∀ s, (decode s).length = s.length)
    (size : Nat) :
    ∀ (n : Nat) (stream data : Str), stream.length = n →
      data.length + stream.length = size →
      connect.recvLoop decode size data stream = .ok (data ++ decode stream, []) := by
  intro n
  induction n using Nat.strong_induction_on with
  | _ n ih =>
    intro stream data hn hsum
    rw [connect.recvLoop.eq_def]
    by_cases hlt : data.length < size
    · match stream with
      | [] => simp at hsum; omega
      | c :: rest =>
        have hmc : 0 < maxChunk := by norm_num [maxChunk]
        have hpos : 0 < n := by
          rw [← hn]
          simp
        have hdrop : ((c :: rest).drop maxChunk).length = n - maxChunk := by
          rw [List.length_drop, hn]
        have hstep := ih (n - maxChunk) (by omega)
          ((c :: rest).drop maxChunk)
          (data ++ decode ((c :: rest).take maxChunk)) hdrop
          (by
            rw [hdrop, List.length_append, hlen, List.length_take, hn]
            rw [hn] at hsum
            omega)
        simp only [hlt, if_true]
        rw [hstep]
        rw [List.append_assoc, ← hadd, List.take_append_drop]
    · have hz : stream.length = 0 := by omega
      have hnil : stream = [] := List.length_eq_zero.mp hz
      have hd : decode [] = [] := by
        have := hlen []
        simpa using List.length_eq_zero.mp (by simpa using this)
      subst hnil
      simp [hlt, hd]

/-- For a declared size other than exactly 65536, with the outstanding
bytes exactly on the stream, the body-reading phase of `connect.recv`
consumes exactly `size` bytes and decodes them. -/
theorem readBody_exact (decode : Str → Str)
    (hadd : ∀ a b, decode (a ++ b) = decode a ++ decode b)
    (hlen : ∀ s, (decode s).length = s.length)
    (size : Nat) (stream : Str)
    (hne : size ≠ maxChunk) (hs : stream.length = size) :
    connect.readBody decode size stream = .ok (decode stream, []) := by
  unfold connect.readBody
  by_cases hlt : size < maxChunk
  · have hguard : ¬(size ≠ 0 ∧ stream = []) := by
      rintro ⟨hz, hnil⟩
      rw [hnil] at hs
      simp at hs
      omega
    simp only [hlt, if_true, hguard, if_false]
    rw [← hs, List.take_length, List.drop_length]
  · have hgt : maxChunk < size := by omega
    simp only [hlt, if_false, hgt, if_true]
    have := recvLoop_exact decode hadd hlen size stream.length stream [] rfl
      (by simpa using hs)
    simpa using this

theorem natToStrCore_length_le (fuel : Nat) :
    ∀ (n k : Nat), n < 10 ^ k → (natToStrCore fuel n).length ≤ k := by
  induction fuel with
  | zero => intro n k _h; simp [natToStrCore]
  | succ fuel ih =>
    intro n k h
    by_cases hn : n = 0
    · simp [natToStrCore, hn]
    · have hk : 1 ≤ k := by
        by_contra hk
        have : k = 0 := by omega
        subst this
        simp at h
        omega
      have hdiv : n / 10 < 10 ^ (k - 1) := by
        rw [Nat.div_lt_iff_lt_mul (by norm_num)]
        calc n < 10 ^ k := h
        _ = 10 ^ (k - 1) * 10 := by
            rw [← Nat.pow_succ]
            congr 1
            omega
      have := ih (n / 10) (k - 1) hdiv
      simp only [natToStrCore, hn, if_false, List.length_append, List.length_cons,
        List.length_nil]
      omega

/-- the length of `str(n)` is at most `k` digits when `n < 10 ^ k`. -/
theorem natToStr_length_le (n k : Nat) (hk : 1 ≤ k) (h : n < 10 ^ k) :
    (natToStr n).length ≤ k := by
  by_cases hn : n = 0
  · simp [natToStr, hn]
    omega
  · simp only [natToStr, hn, if_false]
    exact natToStrCore_length_le n n k h

theorem take_append_of_length (a b : List Nat) (n : Nat) (h : a.length = n) :
    (a ++ b).take n = a := by
  subst h
  exact List.take_left a b

theorem drop_append_of_length (a b : List Nat) (n : Nat) (h : a.length = n) :
    (a ++ b).drop n = b := by
  subst h
  exact List.drop_left a b

/-- C1 (round trip).  If one endpoint calls `send(value)` and the peer
calls `recv()` with the same key (or both with no key), and the symmetric
cipher satisfies its contract (decryption inverts encryption, distributes
over chunk concatenation, and preserves length — as the per-chunk
decryption of the receive loop requires), the value codec round-trips,
the frame body is not exactly 65536 bytes, and its length header fits the
1024-byte header read, then `recv` returns a value equal to the original
and consumes the whole frame. -/
theorem frame_roundtrip {α : Type} (C : Cipher) (dc : DataCodec α)
    (key : Option Str) (v : α)
    (hdec : ∀ k s, key = some k → C.decrypt k (C.encrypt k s) = s)
    (hadd : ∀ k a b, key = some k →
      C.decrypt k (a ++ b) = C.decrypt k a ++ C.decrypt k b)
    (hlen : ∀ k s, key = some k → (C.decrypt k s).length = s.length)
    (hback : dc.convert_data_back (dc.convert_data v) = v)
    (hsize : (wireBody C dc key v).length ≠ maxChunk)
    (hsmall : (wireBody C dc key v).length < 10 ^ 1024) :
    sendRecvRoundTrip C dc key v = .ok (v, []) := by
  cases key with
  | none =>
    simp only [wireBody] at hsize hsmall
    set md := dc.convert_data v with hmd
    set B := dumpsEnvelope md.1 md.2 with hB
    have hsend : connect.send C dc none v trueTok =
        .ok ⟨natToStr B.length, trueTok, [B]⟩ := by
      simp [connect.send, ← hmd, ← hB]
    have htake : (natToStr B.length).take 1024 = natToStr B.length :=
      List.take_of_length_le (natToStr_length_le _ 1024 (by norm_num) hsmall)
    have hack : (trueTok ++ B).take 4 = trueTok := take_append_of_length trueTok _ 4 rfl
    have hdrop : (trueTok ++ B).drop 4 = B := drop_append_of_length trueTok _ 4 rfl
    have hbody := readBody_exact (fun s => s) (by simp) (by simp) B.length B hsize rfl
    simp only [sendRecvRoundTrip, hsend, connect.recv, connect.declaredSize,
      connect.bodyDecode, List.flatten_cons, List.flatten_nil, List.append_nil,
      htake, strToNat_natToStr, hack, hdrop, hbody, hB, loadsEnvelope_dumpsEnvelope]
    simp [← hmd, hback]
  | some k =>
    have hdec' := fun s => hdec k s rfl
    have hadd' := fun a b => hadd k a b rfl
    have hlen' := fun s => hlen k s rfl
    have henclen : ∀ s, (C.encrypt k s).length = s.length := by
      intro s
      rw [← hlen' (C.encrypt k s), hdec' s]
    simp only [wireBody] at hsize hsmall
    set md := dc.convert_data v with hmd
    set B := dumpsEnvelope md.1 md.2 with hB
    set E := C.encrypt k B with hE
    have hsend : connect.send C dc (some k) v trueTok =
        .ok ⟨C.encrypt k (natToStr E.length), trueTok, [E]⟩ := by
      simp [connect.send, ← hmd, ← hB, ← hE]
    have htake : (C.encrypt k (natToStr E.length)).take 1024 =
        C.encrypt k (natToStr E.length) :=
      List.take_of_length_le (le_trans (le_of_eq (henclen _))
        (natToStr_length_le _ 1024 (by norm_num) hsmall))
    have hack : (trueTok ++ E).take 4 = trueTok := take_append_of_length trueTok _ 4 rfl
    have hdrop : (trueTok ++ E).drop 4 = E := drop_append_of_length trueTok _ 4 rfl
    have hbody := readBody_exact (fun s => C.decrypt k s) hadd' hlen' E.length E hsize rfl
    have hEB : C.decrypt k E = B := hdec' B
    simp only [sendRecvRoundTrip, hsend, connect.recv, connect.declaredSize,
      connect.bodyDecode, List.flatten_cons, List.flatten_nil, List.append_nil,
      htake, hdec', strToNat_natToStr, hack, hdrop, hbody, hEB, hB,
      loadsEnvelope_dumpsEnvelope]
    simp [← hmd, hback]

theorem escape_eq_self (s : Str) (h : ∀ c ∈ s, ¬(c = 34 ∨ c = 92)) :
    escape s = s := by
  induction s with
  | nil => rfl
  | cons c rest ih =>
    have hc : ¬(c = 34 ∨ c = 92) := h c (by simp)
    simp only [escape, escapeChar, hc, if_false, List.singleton_append,
      List.cons.injEq, true_and]
    exact ih fun d hd => h d (by simp [hd])

theorem bigBody_length : bigBody.length = 70022 := by
  have h1 : escape bigPayload = bigPayload := by
    apply escape_eq_self
    intro c hc
    simp only [bigPayload, List.mem_replicate] at hc
    rw [hc.2]
    decide
  have h2 : escape [115] = [115] := by decide
  have hlen : bigPayload.length = 70000 := by
    rw [bigPayload]
    exact List.length_replicate _ _
  rw [bigBody, dumpsEnvelope, h1, h2]
  simp only [List.length_append, hlen]
  rfl

theorem waitKeyAux_all_none (attempt : Nat → Option HVal) :
    ∀ (n i : Nat), (∀ j, j < n → attempt (i + j) = none) →
      waitKeyAux attempt i n = (none, n) := by
  intro n
  induction n with
  | zero => intro i _h; rfl
  | succ n ih =>
    intro i h
    have h0 : attempt i = none := by simpa using h 0 (by omega)
    have hrest : ∀ j, j < n → attempt (i + 1 + j) = none := by
      intro j hj
      have := h (j + 1) (by omega)
      rw [show i + (j + 1) = i + 1 + j by omega] at this
      exact this
    simp [waitKeyAux, h0, ih (i + 1) hrest]

set_option maxRecDepth 8000 in
/-- C1 witness input: a two-byte value sent under key `[107]` with the
shift cipher. -/
theorem frame_roundtrip_witness :
    sendRecvRoundTrip succCipher strCodec (some [107]) [104, 105] =
      .ok ([104, 105], []) := by
  have hcomp : ((fun c : Nat => c - 1) ∘ fun c : Nat => c + 1) = id := by
    funext c
    simp
  apply frame_roundtrip succCipher strCodec (some [107]) [104, 105]
  · intro k s hk
    cases hk
    simp [succCipher, List.map_map, hcomp]
  · intro k a b hk
    cases hk
    simp [succCipher]
  · intro k s hk
    cases hk
    simp [succCipher]
  · rfl
  · decide
  · decide

theorem send_none_eq {α : Type} (C : Cipher) (dc : DataCodec α) (v : α) :
    connect.send C dc none v trueTok =
      .ok ⟨natToStr (dumpsEnvelope (dc.convert_data v).1 (dc.convert_data v).2).length,
           trueTok, [dumpsEnvelope (dc.convert_data v).1 (dc.convert_data v).2]⟩ := rfl

theorem send_some_eq {α : Type} (C : Cipher) (dc : DataCodec α) (k : Str) (v : α) :
    connect.send C dc (some k) v trueTok =
      .ok ⟨C.encrypt k (natToStr
             (C.encrypt k (dumpsEnvelope (dc.convert_data v).1 (dc.convert_data v).2)).length),
           trueTok,
           [C.encrypt k (dumpsEnvelope (dc.convert_data v).1 (dc.convert_data v).2)]⟩ := rfl

/-- C2 (amended): for every frame whose declared size is not exactly
65536, given a per-chunk decoder that distributes over concatenation and
preserves length (true of utf-8 decoding on ASCII, and required of
`decrypt` by the per-chunk decryption the loop performs) and a stream
holding exactly the declared bytes, the body-reading phase of
`connect.recv` reads exactly the declared number of body bytes before the
body is parsed — consuming the whole stream, accumulating across multiple
65536-byte reads when the size exceeds 65536. -/
theorem recv_reads_exactly_declared (decode : Str → Str)
    (hadd : ∀ a b, decode (a ++ b) = decode a ++ decode b)
    (hlen : ∀ s, (decode s).length = s.length)
    (size : Nat) (stream : Str)
    (hne : size ≠ 65536) (hs : stream.length = size) :
    connect.readBody decode size stream = .ok (decode stream, []) :=
  readBody_exact decode hadd hlen size stream hne hs

/-- C2 witness input: a declared size of 65537 with exactly 65537 bytes on
the stream, exercising the accumulate loop. -/
theorem recv_reads_exactly_declared_witness :
    connect.readBody (fun s => s) 65537 (List.replicate 65537 97) =
      .ok (List.replicate 65537 97, []) :=
  recv_reads_exactly_declared (fun s => s) (fun _ _ => rfl) (fun _ => rfl)
    65537 (List.replicate 65537 97) (by decide) (List.length_replicate 65537 97)

/-- C2 counterexample: a frame with declared size exactly 65536 and 65536
body bytes available — the body-reading phase of `connect.recv` executes
neither branch and reads zero bytes (the accumulated data is empty and
the stream is left untouched), not the declared 65536. -/
theorem recv_reads_exactly_declared_cex :
    connect.readBody (fun s => s) 65536 (List.replicate 65536 97) =
      .ok ([], List.replicate 65536 97) ∧ (65536 : Nat) ≠ 0 :=
  ⟨rfl, by decide⟩

/-- C3 counterexample: a 70000-byte payload whose 70022-byte serialized
body exceeds the maximum single-transfer size, yet `send` transmits it as
a single `sendall` write of all 70022 bytes — not as successive chunks of
at most 65536 bytes each. -/
theorem send_no_chunk_split_cex :
    connect.send succCipher strCodec none bigPayload trueTok =
      .ok ⟨natToStr bigBody.length, trueTok, [bigBody]⟩ ∧
    bigBody.length > 65536 := by
  constructor
  · rfl
  · rw [bigBody_length]
    decide

/-- C3 (amended): `send` performs no chunk splitting: whatever the body
size, it writes the body in exactly one `sendall` call carrying the full
(possibly encrypted) serialized envelope, and the length header declares
that single write's true total byte length. -/
theorem send_single_body_write {α : Type} (C : Cipher) (dc : DataCodec α)
    (key : Option Str) (v : α) (tr : SendTrace)
    (hdec : ∀ k, key = some k → ∀ s, C.decrypt k (C.encrypt k s) = s)
    (h : connect.send C dc key v trueTok = .ok tr) :
    tr.bodyChunks = [wireBody C dc key v] ∧
    connect.declaredSize C key tr.header = some (wireBody C dc key v).length := by
  cases key with
  | none =>
    rw [send_none_eq] at h
    injection h with h
    subst h
    simp [connect.declaredSize, strToNat_natToStr, wireBody]
  | some k =>
    rw [send_some_eq] at h
    injection h with h
    subst h
    simp [connect.declaredSize, hdec k rfl, strToNat_natToStr, wireBody]

/-- C3 amended-claim witness input: the unkeyed big payload. -/
theorem send_single_body_write_witness :
    SendTrace.bodyChunks ⟨natToStr bigBody.length, trueTok, [bigBody]⟩ =
      [wireBody succCipher strCodec none bigPayload] ∧
    connect.declaredSize succCipher none
        (SendTrace.header ⟨natToStr bigBody.length, trueTok, [bigBody]⟩) =
      some (wireBody succCipher strCodec none bigPayload).length :=
  send_single_body_write succCipher strCodec none bigPayload
    ⟨natToStr bigBody.length, trueTok, [bigBody]⟩
    (fun k hk => nomatch hk) rfl

theorem waitKeyAux_first_some (attempt : Nat → Option HVal) (i n : Nat)
    (v : HVal) (h : attempt i = some v) (hn : 0 < n) :
    waitKeyAux attempt i n = (some v, 0) := by
  cases n with
  | zero => omega
  | succ n => simp [waitKeyAux, h]

/-- C4: in both `send` and `recv`, an acknowledgement token that is not
the literal sentinel "True" makes the operation raise the
desynchronization `ConnectionError` immediately — no retry, no
resynchronization, no continuing with the frame: `send` for either key
mode, and `recv` whenever its header parsed to a size. -/
theorem ack_mismatch_raises {α : Type} (C : Cipher) (dc : DataCodec α)
    (key : Option Str) (v : α) (ack : Str) (hck : ack ≠ trueTok)
    (header rest : Str) (n : Nat)
    (hh : connect.declaredSize C key (header.take 1024) = some n)
    (hr : rest.take 4 ≠ trueTok) :
    connect.send C dc key v ack = .error .desync ∧
    connect.recv C dc key header rest = .error .desync := by
  constructor
  · cases key with
    | none => simp [connect.send, hck]
    | some k => simp [connect.send, hck]
  · simp [connect.recv, hh, hr]

/-- C4 witness input: a 4-byte acknowledgement "XXXX" against a frame
declaring 3 bytes. -/
theorem ack_mismatch_raises_witness :
    connect.send succCipher strCodec none [104] [70] = .error .desync ∧
    connect.recv succCipher strCodec none (natToStr 3) [88, 88, 88, 88] =
      .error .desync :=
  ack_mismatch_raises succCipher strCodec none [104] [70] (by decide)
    (natToStr 3) [88, 88, 88, 88] 3 (by decide) (by decide)

/-- C9: for every frame produced by `send` (with or without a key), the
declared length carried by the length header — read back the way `recv`
interprets it — equals the exact total byte length of the (possibly
encrypted) body bytes subsequently written to the socket. -/
theorem declared_length_matches_body {α : Type} (C : Cipher)
    (dc : DataCodec α) (key : Option Str) (v : α) (tr : SendTrace)
    (hdec : ∀ k, key = some k → ∀ s, C.decrypt k (C.encrypt k s) = s)
    (h : connect.send C dc key v trueTok = .ok tr) :
    connect.declaredSize C key tr.header =
      some ((tr.bodyChunks.map List.length).sum) := by
  cases key with
  | none =>
    rw [send_none_eq] at h
    injection h with h
    subst h
    simp [connect.declaredSize, strToNat_natToStr]
  | some k =>
    rw [send_some_eq] at h
    injection h with h
    subst h
    simp [connect.declaredSize, hdec k rfl, strToNat_natToStr]

/-- C9 witness input: the one-byte value under the shift cipher. -/
theorem declared_length_matches_body_witness :
    connect.declaredSize succCipher (some [107])
        (SendTrace.header
          ⟨succCipher.encrypt [107] (natToStr
             (succCipher.encrypt [107] (dumpsEnvelope [104] [115])).length),
           trueTok, [succCipher.encrypt [107] (dumpsEnvelope [104] [115])]⟩) =
      some (([succCipher.encrypt [107] (dumpsEnvelope [104] [115])].map
        List.length).sum) :=
  declared_length_matches_body succCipher strCodec (some [107]) [104]
    ⟨succCipher.encrypt [107] (natToStr
       (succCipher.encrypt [107] (dumpsEnvelope [104] [115])).length),
     trueTok, [succCipher.encrypt [107] (dumpsEnvelope [104] [115])]⟩
    (fun k hk s => by
      cases hk
      have hcomp : ((fun c : Nat => c - 1) ∘ fun c : Nat => c + 1) = id := by
        funext c
        simp
      simp [succCipher, List.map_map, hcomp]) rfl

/-- C10: when the declared frame size is exactly 65536, `recv` executes
neither body-reading branch (they cover only `size < 65536` and
`size > 65536`), reads zero body bytes — the decoded data is empty and
the body stream is left unconsumed — and then fails parsing the empty
string as the envelope; it never returns a value for such a frame. -/
theorem recv_at_exactly_65536_fails {α : Type} (C : Cipher)
    (dc : DataCodec α) (stream : Str) :
    connect.recv C dc none (natToStr 65536) (trueTok ++ stream) =
      .error .jsonError ∧
    connect.readBody (connect.bodyDecode C none) 65536 stream =
      .ok ([], stream) := by
  have hrb : ∀ st : Str, connect.readBody (connect.bodyDecode C none) 65536 st =
      .ok ([], st) := fun _ => rfl
  constructor
  · have h1 : (natToStr 65536).take 1024 = natToStr 65536 := by decide
    have h2 : connect.declaredSize C none ((natToStr 65536).take 1024) =
        some 65536 := by
      rw [h1]
      exact strToNat_natToStr 65536
    have hack : (trueTok ++ stream).take 4 = trueTok :=
      take_append_of_length trueTok _ 4 rfl
    have hdrop : (trueTok ++ stream).drop 4 = stream :=
      drop_append_of_length trueTok _ 4 rfl
    have hload : loadsEnvelope [] = none := rfl
    simp only [connect.recv, h2, hack, hdrop, hrb, hload, ne_eq,
      not_true_eq_false, if_false, ite_false]
  · exact hrb stream

/-- C5: when both endpoints run `create_secure_connection` to completion
with RSA requested on both sides, under the RSA and symmetric cipher
contracts (and a public key distinct from the disabled marker), both
endpoints end the handshake holding byte-identical symmetric keys — the
client's randomly generated session password; when encryption is
requested on neither side and no pre-shared key was given, both end with
no key set. -/
theorem handshake_agreement (sym : Cipher) (rsa : RsaApi)
    (rsaEnc : Str → Str → Str) (sha : Str → Str) (k0s k0c : Option Str)
    (cd spw : Str)
    (hrsa : rsa.decrypt (rsaEnc rsa.public_key spw) = spw)
    (hsym : sym.decrypt spw (sym.encrypt spw cd) = cd)
    (hpub : rsa.public_key ≠ rsaDisabledTok) :
    handshakePair sym rsa rsaEnc sha k0s k0c cd spw true =
      .ok (some spw, some spw) ∧
    handshakePair sym rsa rsaEnc sha none none cd spw false =
      .ok (none, none) := by
  constructor
  · have hw : waitKey (fun i => if i = 0 then some (.str rsa.public_key)
        else none) = (some (.str rsa.public_key), 0) := by
      rw [waitKey]
      exact waitKeyAux_first_some _ 0 30 _ (by simp) (by norm_num)
    simp [handshakePair, hw, hpub, server_offered, client_confirm,
      server_confirm, hrsa, hsym]
  · have hw : waitKey (fun i => if i = 0 then some (.str rsaDisabledTok)
        else none) = (some (.str rsaDisabledTok), 0) := by
      rw [waitKey]
      exact waitKeyAux_first_some _ 0 30 _ (by simp) (by norm_num)
    simp [handshakePair, hw]

/-- C5 witness input: identity RSA, the shift cipher, session password
`[55]`, confirmation value `[99]`. -/
theorem handshake_agreement_witness :
    handshakePair succCipher idRsa (fun _ s => s) (fun s => s)
      (some [1]) (some [2]) [99] [55] true = .ok (some [55], some [55]) ∧
    handshakePair succCipher idRsa (fun _ s => s) (fun s => s)
      none none [99] [55] false = .ok (none, none) :=
  handshake_agreement succCipher idRsa (fun _ s => s) (fun s => s)
    (some [1]) (some [2]) [99] [55] rfl (by decide) (by decide)

/-- C6: an initiator whose 30 receive attempts all time out performs
exactly 30 retries at a fixed one-second interval — 30 one-second sleeps,
about 30 seconds of waiting — and then raises the `socket.timeout` error
of lines 159-160 rather than waiting indefinitely. -/
theorem client_handshake_timeout (sym : Cipher) (rsaEnc : Str → Str → Str)
    (sha : Str → Str) (key0 : Option Str) (spw : Str)
    (attempt : Nat → Option HVal) (m2 : HVal)
    (h : ∀ i, i < 30 → attempt i = none) :
    create_secure_connection_client sym rsaEnc sha key0 spw attempt m2 =
      .error .timeout ∧
    (waitKey attempt).2 = 30 := by
  have hw : waitKey attempt = (none, 30) := by
    rw [waitKey]
    exact waitKeyAux_all_none attempt 30 0 (by intro j hj; simpa using h j hj)
  constructor
  · simp [create_secure_connection_client, hw]
  · rw [hw]

/-- C6 witness input: every receive attempt times out. -/
theorem client_handshake_timeout_witness :
    create_secure_connection_client succCipher (fun _ s => s) (fun s => s)
      none [55] (fun _ => none) (.str [1]) = .error .timeout ∧
    (waitKey (fun _ => none)).2 = 30 :=
  client_handshake_timeout succCipher (fun _ s => s) (fun s => s) none [55]
    (fun _ => none) (.str [1]) (fun _ _ => rfl)

/-- C7: on either side of the handshake, a failed key-confirmation check
leaves the candidate session key unadopted without rejecting the
connection: the server (echo differs from its `confirmation_data`)
completes normally with its key field at the prior value, and the client
(hash of the decrypted confirmation differs from the received hash)
completes normally with its key field at the prior value, sending no
echo and raising no error. -/
theorem confirm_mismatch_keeps_prior_key (sym : Cipher) (rsa : RsaApi)
    (sha : Str → Str) (k0s k0c : Option Str) (cd s1 spw d hsh : Str)
    (r2 : HVal) (rsaEnc : Str → Str → Str) (attempt : Nat → Option HVal)
    (p : Str)
    (hr2 : r2 ≠ .str cd)
    (hhash : sha (sym.decrypt spw d) ≠ hsh)
    (hatt : attempt 0 = some (.str p)) (hp : p ≠ rsaDisabledTok) :
    create_secure_connection_server sym rsa sha k0s cd true (.str s1) r2 =
      .ok (k0s, [.str rsa.public_key,
                 .dict (sym.encrypt (rsa.decrypt s1) cd) (sha cd)]) ∧
    create_secure_connection_client sym rsaEnc sha k0c spw attempt
        (.dict d hsh) = .ok (k0c, 0) := by
  constructor
  · simp [create_secure_connection_server, server_offered, server_confirm, hr2]
  · have hw : waitKey attempt = (some (.str p), 0) := by
      rw [waitKey]
      exact waitKeyAux_first_some attempt 0 30 _ hatt (by norm_num)
    simp [create_secure_connection_client, hw, hp, client_confirm, hhash]

/-- C7 witness input: the server receives echo `[1]` instead of `[99]`,
the client receives hash `[9]` instead of the correct `[4]`. -/
theorem confirm_mismatch_keeps_prior_key_witness :
    create_secure_connection_server succCipher idRsa (fun s => s)
        (some [3]) [99] true (.str [55]) (.str [1]) =
      .ok (some [3], [.str idRsa.public_key,
        .dict (succCipher.encrypt (idRsa.decrypt [55]) [99])
          ((fun s : Str => s) [99])]) ∧
    create_secure_connection_client succCipher (fun _ s => s) (fun s => s)
        (some [4]) [55] (fun _ => some (.str [112])) (.dict [5] [9]) =
      .ok (some [4], 0) :=
  confirm_mismatch_keeps_prior_key succCipher idRsa (fun s => s)
    (some [3]) (some [4]) [99] [55] [55] [5] [9] (.str [1])
    (fun _ s => s) (fun _ => some (.str [112])) [112]
    (by decide) (by decide) rfl (by decide)

/-- C8: the exception dispatch of lines 89-94 gives a port already in use
(EADDRINUSE, an `OSError`) exactly the same raised error as an invalid
local address (EADDRNOTAVAIL) — the ip-address message of line 94 — so
the two causes are not distinguishable; the "port already in use"
message of line 92 is raised only on `PermissionError`, i.e. for a
privileged-port EACCES, to which its text misattributes the cause. -/
theorem bind_errors_indistinguishable :
    bindErrorRaised [48] 8080 .eaddrinuse = .badIp [48] ∧
    bindErrorRaised [48] 8080 .eaddrnotavail = .badIp [48] ∧
    bindErrorRaised [48] 8080 .eaddrinuse =
      bindErrorRaised [48] 8080 .eaddrnotavail ∧
    bindErrorRaised [48] 8080 .eacces = .portInUse 8080 :=
  ⟨rfl, rfl, rfl, rfl⟩
